import Mathlib

/-!
Shallow embedding of the esports-analytics ingestion/analytics pipeline:
the data model (`analytics/models/`), the reconciliation and recompute
logic (`analytics/management/commands/update_analytics.py`,
`analytics/models/teams.py`), the API client behaviour
(`analytics/utils/data_fetcher.py`) and the prediction scorer
(`analytics/utils/predictors.py`).  Floats are modelled as rationals,
datetimes as integer epoch seconds, database rows as structures and
tables as lists of rows.
-/

namespace Esports

/-- Row of the `Team` table (`analytics/models/teams.py`): `id` is the
database primary key, `pandascore_id` the provider's external id. -/
structure Team where
  id : Nat
  pandascore_id : Nat
deriving DecidableEq, Repr

/-- Row of the `TeamAnalysis` table (`analytics/models/teams.py`).
`last_ten_winrate` is a float column declared with `default=0.0`; we keep
an `Option` so that an explicit SQL NULL (assignable in tests) is
representable.  `h2h_advantage` is the JSON mapping from opponent
external id to a win-rate float, `last_match_data` a nullable datetime. -/
structure TeamAnalysis where
  last_ten_winrate : Option ℚ
  h2h_advantage : List (Nat × ℚ)
  last_match_data : Option ℤ
deriving DecidableEq, Repr

/-- The analysis row produced by the model's field defaults, as created by
`TeamAnalysis.objects.get_or_create(team=...)` with no explicit values
(this is how both the `post_save` signal and `MatchPredictor.__init__`
materialise a missing record): `last_ten_winrate = 0.0`, empty mapping,
no last-match date. -/
def defaultTeamAnalysis : TeamAnalysis :=
  { last_ten_winrate := some 0, h2h_advantage := [], last_match_data := none }

/-- Model of `MatchPredictor._calculate_winrate`: the stored value unless
it is NULL, in which case the neutral 0.5. -/
def calculate_winrate (a : TeamAnalysis) : ℚ :=
  match a.last_ten_winrate with
  | none => 1/2
  | some w => w

/-- Model of `MatchPredictor._calculate_h2h`: look the away team's
external id up in the home analysis's mapping; an absent key gives the
neutral 0.5. -/
def calculate_h2h (home : TeamAnalysis) (awayId : Nat) : ℚ :=
  match home.h2h_advantage.lookup awayId with
  | none => 1/2
  | some v => v

/-- Model of `MatchPredictor._calculate_fatigue` at current time `now`
(epoch seconds): step function of hours since the last known match,
defaulting to fully rested when no last match is recorded. -/
def calculate_fatigue (now : ℤ) (a : TeamAnalysis) : ℚ :=
  match a.last_match_data with
  | none => 1
  | some last =>
    let hours_since_last : ℚ := ((now - last : ℤ) : ℚ) / 3600
    if hours_since_last < 24 then 0
    else if hours_since_last < 48 then 1/4
    else if hours_since_last < 72 then 1/2
    else if hours_since_last < 96 then 3/4
    else 1

/-- Which side of the matchup a prediction declares as winner. -/
inductive Side where
  | home
  | away
deriving DecidableEq, Repr

/-- Result of `MatchPredictor.predict`: the declared winner (`none` when
the degenerate zero-total branch fires) and the confidence value. -/
structure Prediction where
  winner : Option Side
  confidence : ℚ
deriving DecidableEq, Repr

/-- Home-side weighted score of `MatchPredictor.predict`. -/
def home_score (home_winrate h2h home_fatigue : ℚ) : ℚ :=
  home_winrate * (6/10) + h2h * (3/10) + home_fatigue * (1/10)

/-- Away-side weighted score of `MatchPredictor.predict`. -/
def away_score (away_winrate h2h away_fatigue : ℚ) : ℚ :=
  away_winrate * (6/10) + (1 - h2h) * (3/10) + away_fatigue * (1/10)

/-- Winner/confidence selection of `MatchPredictor.predict`: when the
score total is zero, confidence 0.5 and no winner; otherwise the two
confidences are compared with a strict greater-than on the home side. -/
def predict_outcome (hs asc : ℚ) : Prediction :=
  let total := hs + asc
  if total = 0 then { winner := none, confidence := 1/2 }
  else
    let home_confidence := hs / total
    let away_confidence := asc / total
    if home_confidence > away_confidence then
      { winner := some Side.home, confidence := home_confidence }
    else
      { winner := some Side.away, confidence := away_confidence }

/-- Model of `MatchPredictor.predict` over the two analysis rows: factor
extraction followed by weighted scoring and winner selection. -/
def predict (now : ℤ) (homeA awayA : TeamAnalysis) (awayId : Nat) : Prediction :=
  let home_winrate := calculate_winrate homeA
  let away_winrate := calculate_winrate awayA
  let h2h := calculate_h2h homeA awayId
  let home_fatigue := calculate_fatigue now homeA
  let away_fatigue := calculate_fatigue now awayA
  predict_outcome (home_score home_winrate h2h home_fatigue)
    (away_score away_winrate h2h away_fatigue)

/-- Row of the `HistoricalMatch` table
(`analytics/models/historical_match.py`): `id` is the database primary
key, `match_id` the provider's external id (the dedup key), `winner_id`
the primary key of the winner `Team` row (the `winner` foreign key) and
`team_ids` the primary keys of the rows in the `teams` many-to-many set. -/
structure HistoricalMatch where
  id : Nat
  match_id : String
  date : ℤ
  tournament : String
  winner_id : Nat
  team_ids : List Nat
deriving DecidableEq, Repr

/-- Normalized historical-match record as produced by
`DataFetcher._parse_historical_match`: provider ids throughout, with the
winner id optional (`winner.id` may be missing from the payload). -/
structure HistRecord where
  match_id : String
  date : ℤ
  tournament : String
  team_ids : List Nat
  winner_id : Option Nat
deriving DecidableEq, Repr

/-- The database state `store_historical_matches` reads and writes: the
`Team` table and the `HistoricalMatch` table. -/
structure DB where
  teams : List Team
  historical : List HistoricalMatch
deriving DecidableEq, Repr

/-- Participant resolution in `Command.store_historical_matches`:
`Team.objects.filter(pandascore_id__in=match_data['team_ids'])`. -/
def resolve_teams (teams : List Team) (r : HistRecord) : List Team :=
  teams.filter (fun t => r.team_ids.contains t.pandascore_id)

/-- Winner resolution in `Command.store_historical_matches`:
`Team.objects.filter(pandascore_id=match_data['winner_id']).first()`; a
missing winner id matches no row. -/
def resolve_winner (teams : List Team) (r : HistRecord) : Option Team :=
  match r.winner_id with
  | none => none
  | some wid => teams.find? (fun t => t.pandascore_id == wid)

/-- One iteration of the loop in `Command.store_historical_matches`:
skip on duplicate external id, skip when fewer than two participant ids
resolve, skip when the winner id resolves to no `Team` row, otherwise
create the row (primary key modelled as the next sequence number) and
associate the resolved team set. -/
def store_one (db : DB) (r : HistRecord) : DB :=
  if db.historical.any (fun m => m.match_id == r.match_id) then db
  else if (resolve_teams db.teams r).length < 2 then db
  else
    match resolve_winner db.teams r with
    | none => db
    | some w =>
      { db with historical := db.historical ++
          [{ id := db.historical.length
             match_id := r.match_id
             date := r.date
             tournament := r.tournament
             winner_id := w.id
             team_ids := (resolve_teams db.teams r).map (fun t => t.id) }] }

/-- Model of `Command.store_historical_matches`: process the batch record
by record; per-record failures are skips that leave the state unchanged. -/
def store_historical_matches (db : DB) (batch : List HistRecord) : DB :=
  batch.foldl store_one db

/-- Date ordering used by `order_by('-date')`: newest first. -/
def dateDesc (a b : HistoricalMatch) : Prop := b.date ≤ a.date

instance : DecidableRel dateDesc := fun a b => Int.decLe b.date a.date

instance : IsTotal HistoricalMatch dateDesc := ⟨fun a b => le_total b.date a.date⟩

instance : IsTrans HistoricalMatch dateDesc := ⟨fun _ _ _ hab hbc => le_trans hbc hab⟩

/-- Sorting a query set with `order_by('-date')`. -/
def byDateDesc (l : List HistoricalMatch) : List HistoricalMatch :=
  l.insertionSort dateDesc

/-- Query set `HistoricalMatch.objects.filter(teams=team)`: the stored
matches whose team set contains the team's primary key. -/
def team_matches (team : Team) (table : List HistoricalMatch) : List HistoricalMatch :=
  table.filter (fun m => m.team_ids.contains team.id)

/-- The at-most-10 window `filter(teams=team).order_by('-date')[:10]`
used by `Command.update_team_analysis`. -/
def recent_window (team : Team) (table : List HistoricalMatch) : List HistoricalMatch :=
  (byDateDesc (team_matches team table)).take 10

/-- Model of `Command.update_team_analysis`, returning the analysis row
stored after the call.  `get_or_create` supplies the field defaults when
no row exists; an empty window returns before any further write; a
non-empty window writes the win rate over the window and the date of the
window's first (most recent) match. -/
def update_team_analysis (team : Team) (existing : Option TeamAnalysis)
    (table : List HistoricalMatch) : TeamAnalysis :=
  let analysis := existing.getD defaultTeamAnalysis
  let recent_matches_list := recent_window team table
  let total := recent_matches_list.length
  if total = 0 then analysis
  else
    let wins := recent_matches_list.countP (fun m => m.winner_id == team.id)
    { analysis with
        last_ten_winrate := some ((wins : ℚ) / (total : ℚ))
        last_match_data := recent_matches_list.head?.map (fun m => m.date) }

/-- Model of `TeamAnalysis.update_from_history`
(`analytics/models/teams.py`): the window is materialised as the list of
primary keys of the 10 most recent of the team's matches; the win count
is a separate query over the whole `HistoricalMatch` table filtered by
`id__in=last_ten_ids, winner=self.team`; the last-match date is the date
of the first match of the full date-descending ordering. -/
def update_from_history (team : Team) (a : TeamAnalysis)
    (table : List HistoricalMatch) : TeamAnalysis :=
  let last_ten_ids := ((byDateDesc (team_matches team table)).take 10).map (fun m => m.id)
  if last_ten_ids = [] then a
  else
    let wins := (table.filter (fun m =>
      last_ten_ids.contains m.id && (m.winner_id == team.id))).length
    let total := last_ten_ids.length
    { a with
        last_ten_winrate := some ((wins : ℚ) / (total : ℚ))
        last_match_data := (byDateDesc (team_matches team table)).head?.map (fun m => m.date) }

/-- Row of the `Team` table as seen by `Command.get_teams_to_update`:
only the external id is consulted by the code paths that run to
completion (the staleness filter crashes before reading any row, see
`get_teams_to_update`). -/
structure TeamRow where
  pandascore_id : Nat
deriving DecidableEq, Repr

/-- The field names the `TeamAnalysis` model declares
(`analytics/models/teams.py`): `team`, `last_ten_winrate`,
`h2h_advantage`, `last_match_data` — there is no `last_updated` column
(the column of that name lives on `Team`, `Match` and `HistoricalMatch`,
not on `TeamAnalysis`). -/
def teamAnalysisFields : List String :=
  ["team", "last_ten_winrate", "h2h_advantage", "last_match_data"]

/-- Model of `Command.get_teams_to_update`: restrict to the targeted
external id when the `--team-id` option is truthy (Python truthiness:
`None` and `0` are falsy) and return that base query unfiltered when
`--force` is set.  Otherwise the code builds
`base_query.filter(Q(analysis__isnull=True) |
Q(analysis__last_updated__lt=outdated_threshold))`; the ORM resolves the
lookup name `last_updated` against the fields of `TeamAnalysis` when
`filter` is called, the name does not resolve, and `FieldError` is
raised before any team is read — modelled as the `Except.error` result.
The resolution check is written out so the error is derived from the
model's field table; its `ok` arm is unreachable because
`teamAnalysisFields` decidably lacks `last_updated`, so no staleness
behaviour exists to model there and it returns the base query
unfiltered only to keep the function total. -/
def get_teams_to_update (force_update : Bool) (specific_team : Option Nat)
    (teams : List TeamRow) : Except String (List TeamRow) :=
  let base_query :=
    match specific_team with
    | some v => if v ≠ 0 then teams.filter (fun t => t.pandascore_id == v) else teams
    | none => teams
  if force_update then Except.ok base_query
  else if teamAnalysisFields.contains "last_updated" then Except.ok base_query
  else Except.error "Cannot resolve keyword last_updated into field"

/-- Normalized live-match record as produced by
`DataFetcher._parse_matches`: resolved team references (database primary
keys) and an optional `begin_at` start time. -/
structure LiveRecord where
  pandascore_id : Nat
  name : String
  team1 : Option Nat
  team2 : Option Nat
  start_time : Option ℤ
  tournament : String
  status : String
  game : String
  next_map : Option String
deriving DecidableEq, Repr

/-- Row of the `Match` table (`analytics/models/matches.py`): `team1` and
`team2` are nullable foreign keys (`null=True`); `start_time` and
`next_map` are NOT NULL columns (`next_map` is a `CharField` with
`blank=True` but no `null=True`). -/
structure MatchRow where
  pandascore_id : Nat
  name : String
  team1 : Option Nat
  team2 : Option Nat
  start_time : ℤ
  tournament : String
  status : String
  game : String
  next_map : String
deriving DecidableEq, Repr

/-- Upsert semantics of `Match.objects.update_or_create` keyed on the
external id: overwrite the matching row when one exists, append
otherwise. -/
def upsert_match (rows : List MatchRow) (row : MatchRow) : List MatchRow :=
  if rows.any (fun m => m.pandascore_id == row.pandascore_id) then
    rows.map (fun m => if m.pandascore_id == row.pandascore_id then row else m)
  else rows ++ [row]

/-- Model of `DataFetcher.save_matches_to_db` exactly as written: the
validation loop guards only `continue` statements and performs no write,
and the single try block that follows it sits outside the loop, so it
processes only the loop variable left over from the final iteration (a
`NameError` caught by the except when the input is empty).  The write of
that final record fails inside the try (and is swallowed, leaving the
table unchanged and returning `False`) when it violates a NOT NULL
column: when `start_time` is absent, and also when `next_map` is absent
or empty, because the code stores `next_map or None`, which turns both
`None` and the empty string into NULL for the NOT NULL `next_map`
column.  `team1`/`team2` are nullable columns and their absence does not
fail the write.  Returns the new table and `saved_count > 0`. -/
def save_matches_to_db (rows : List MatchRow) (match_list : List LiveRecord) :
    List MatchRow × Bool :=
  match match_list.getLast? with
  | none => (rows, false)
  | some match_data =>
    match match_data.start_time,
        (match match_data.next_map with
          | some s => if s = "" then none else some s
          | none => none : Option String) with
    | some t, some nm =>
      (upsert_match rows
        { pandascore_id := match_data.pandascore_id
          name := match_data.name
          team1 := match_data.team1
          team2 := match_data.team2
          start_time := t
          tournament := match_data.tournament
          status := match_data.status
          game := match_data.game
          next_map := nm }, true)
    | _, _ => (rows, false)

/-- HTTP request issued by `DataFetcher.fetch_matches`: the game slug,
the status filter and the page size that make up the query. -/
structure Request where
  game : String
  status : String
  page_size : Nat
deriving DecidableEq, Repr

/-- Outcome of one HTTP round trip as `fetch_matches` distinguishes them:
a 429 with the provider's reset header, a successful response, or a
transient failure (network error or a status that makes
`raise_for_status` raise). -/
inductive ApiResponse where
  | rateLimited (reset : Nat)
  | success
  | failure
deriving DecidableEq, Repr

/-- The sequence of HTTP requests `fetch_matches(game, status, page_size)`
issues, given the responses the provider returns in order.  On a 429 the
code sleeps for the reset delay and then returns `self.fetch_matches()`
with no arguments, so the follow-up request is built from the parameter
defaults `("csgo", "running,not_started", 20)`; on any other response no
further request is made by this call. -/
def fetch_matches_requests : List ApiResponse → String → String → Nat → List Request
  | [], game, status, page_size => [⟨game, status, page_size⟩]
  | ApiResponse.rateLimited _ :: rest, game, status, page_size =>
      ⟨game, status, page_size⟩ :: fetch_matches_requests rest "csgo" "running,not_started" 20
  | _ :: _, game, status, page_size => [⟨game, status, page_size⟩]

/-- What one invocation of a wrapped callable does, as seen by the
`tenacity` retry wrapper: return a value or raise. -/
inductive BodyOutcome (α : Type) where
  | ret (a : α)
  | exc
deriving DecidableEq, Repr

/-- Semantics of `tenacity.retry` with `stop_after_attempt`: run the body;
when it raises, retry until the attempt ceiling is reached and then
re-raise (`none`); when it returns, stop.  The result is paired with the
number of attempts actually made (`i` numbers the current attempt). -/
def retry_call {α : Type} (body : Nat → BodyOutcome α) : Nat → Nat → Option α × Nat
  | 0, i => (none, i)
  | fuel + 1, i =>
    match body i with
    | BodyOutcome.ret a => (some a, i)
    | BodyOutcome.exc =>
      match fuel with
      | 0 => (none, i)
      | f + 1 => retry_call body (f + 1) (i + 1)

/-- One attempt of the `fetch_matches` body on a non-429 response: the
whole method body is wrapped in `try/except Exception: return []`, so a
transient failure (network error, or the exception from
`raise_for_status` on a 5xx) is caught inside the body and the attempt
returns the empty list instead of raising.  A 429 never reaches this
taxonomy (it is intercepted before `raise_for_status`; see
`fetch_matches_requests`). -/
def fetch_matches_body (resp : ApiResponse) (payload : List LiveRecord) :
    BodyOutcome (List LiveRecord) :=
  match resp with
  | ApiResponse.success => BodyOutcome.ret payload
  | _ => BodyOutcome.ret []

/-- The decorated `fetch_matches` as `@retry(stop=stop_after_attempt(3))`
runs it: the retry wrapper around the body, reporting the result and the
number of attempts made. -/
def fetch_matches_attempts (responses : Nat → ApiResponse)
    (payload : List LiveRecord) : Option (List LiveRecord) × Nat :=
  retry_call (fun i => fetch_matches_body (responses i) payload) 3 1

/-- C2 (code bug): `save_matches_to_db` on a batch of two fully valid
records persists only the final record of the batch; a batch whose final
record lacks a start time persists nothing at all even though its first
record is valid; and even a single record with team1, team2 and a start
time is not persisted when its `next_map` is absent, because
`next_map or None` writes NULL into the NOT NULL `next_map` column.  The
claim (and the function's own per-record validation loop and
`saved_count` log) call for every record with team1, team2 and a start
time to be upserted. -/
theorem save_matches_to_db_only_last :
    save_matches_to_db []
        [⟨1, "m1", some 10, some 20, some 100, "cup", "not_started", "csgo", some "mirage"⟩,
         ⟨2, "m2", some 30, some 40, some 200, "cup", "not_started", "csgo", some "dust2"⟩] =
      ([⟨2, "m2", some 30, some 40, 200, "cup", "not_started", "csgo", "dust2"⟩], true) ∧
    save_matches_to_db []
        [⟨1, "m1", some 10, some 20, some 100, "cup", "not_started", "csgo", some "mirage"⟩,
         ⟨3, "m3", some 30, some 40, none, "cup", "not_started", "csgo", some "dust2"⟩] =
      ([], false) ∧
    save_matches_to_db []
        [⟨4, "m4", some 30, some 40, some 300, "cup", "not_started", "csgo", none⟩] =
      ([], false) := by
  exact ⟨rfl, rfl, rfl⟩

/-- C5 (code bug): a `fetch_matches("dota2", "finished", 50)` call that
receives a 429 reissues the request built from the parameter defaults,
which differs from the original request in every component. -/
theorem fetch_matches_429_default_args :
    fetch_matches_requests [ApiResponse.rateLimited 60] "dota2" "finished" 50 =
      [⟨"dota2", "finished", 50⟩, ⟨"csgo", "running,not_started", 20⟩] ∧
    (⟨"csgo", "running,not_started", 20⟩ : Request) ≠ ⟨"dota2", "finished", 50⟩ := by
  exact ⟨rfl, by decide⟩

/-- C6 (code bug): when every HTTP round trip fails transiently,
`fetch_matches` makes exactly one attempt and returns the empty list,
because its body's blanket `except` swallows the exception before the
retry wrapper can see it; the second conjunct shows the same wrapper
would have made all 3 attempts had the body's exceptions propagated. -/
theorem fetch_matches_swallowed_retries :
    fetch_matches_attempts (fun _ => ApiResponse.failure) [] = (some [], 1) ∧
    retry_call (fun _ => (BodyOutcome.exc : BodyOutcome (List LiveRecord))) 3 1 =
      (none, 3) := by
  exact ⟨rfl, rfl⟩

/-- C3 (code bug): every selection without the force flag raises: the
staleness filter's lookup `analysis__last_updated` names a column
`TeamAnalysis` does not declare, so `FieldError` is raised instead of a
team set being returned — with or without a targeted team id.  The force
path, by contrast, returns its base query (restricted to a targeted
truthy id) as the claim describes, so the crash is confined to the
claim's "otherwise" branch. -/
theorem get_teams_to_update_field_error :
    get_teams_to_update false none [⟨5⟩] =
      Except.error "Cannot resolve keyword last_updated into field" ∧
    get_teams_to_update false (some 5) [⟨5⟩] =
      Except.error "Cannot resolve keyword last_updated into field" ∧
    get_teams_to_update true (some 5) [⟨5⟩, ⟨6⟩] = Except.ok [⟨5⟩] ∧
    get_teams_to_update true none [⟨5⟩, ⟨6⟩] = Except.ok [⟨5⟩, ⟨6⟩] := by
  refine ⟨rfl, rfl, rfl, rfl⟩

/-- C4 counterexample: the analysis row of a team for which no
recomputation has ever run is the row built from the model's field
defaults, whose stored win rate is 0.0 rather than NULL, so the win-rate
factor used for such a team is 0, not the neutral 0.5. -/
theorem calculate_winrate_default_counterexample :
    calculate_winrate defaultTeamAnalysis = 0 ∧
    calculate_winrate defaultTeamAnalysis ≠ 1/2 := by
  refine ⟨rfl, by norm_num [calculate_winrate, defaultTeamAnalysis]⟩

/-- C1 counterexample: a historical-match record whose winner id resolves
to an existing third team that is not one of the two resolved
participants is persisted anyway (with a winner outside the stored team
set), because `store_historical_matches` checks only that the winner id
resolves to some `Team` row. -/
theorem store_winner_not_participant_counterexample :
    (store_historical_matches ⟨[⟨10, 1⟩, ⟨20, 2⟩, ⟨30, 3⟩], []⟩
        [⟨"m1", 5, "cup", [1, 2], some 3⟩]).historical =
      [⟨0, "m1", 5, "cup", 30, [10, 20]⟩] ∧
    (30 : Nat) ∉ [10, 20] := by
  refine ⟨rfl, by decide⟩

/-- C4 amended: the 0.5 neutral win-rate factor applies exactly when the
stored value is NULL; a never-recomputed team's analytics row carries the
field default 0.0 and therefore contributes factor 0; and recomputation
never writes NULL into the field, so the NULL state only arises from an
explicit assignment outside the pipeline. -/
theorem calculate_winrate_neutral_amended :
    (∀ a : TeamAnalysis, a.last_ten_winrate = none → calculate_winrate a = 1/2) ∧
    defaultTeamAnalysis.last_ten_winrate = some 0 ∧
    calculate_winrate defaultTeamAnalysis = 0 ∧
    (∀ (team : Team) (existing : Option TeamAnalysis) (table : List HistoricalMatch),
      (update_team_analysis team existing table).last_ten_winrate = none →
      (existing.getD defaultTeamAnalysis).last_ten_winrate = none) := by
  refine ⟨?_, rfl, rfl, ?_⟩
  · intro a h
    unfold calculate_winrate
    rw [h]
  · intro team existing table h
    simp only [update_team_analysis] at h
    split at h
    · exact h
    · simp at h

/-- Witness for the C4 amended theorem at an explicitly NULLed row. -/
theorem calculate_winrate_neutral_amended_witness :
    calculate_winrate ⟨none, [], none⟩ = 1/2 :=
  calculate_winrate_neutral_amended.1 ⟨none, [], none⟩ rfl

/-- C9: recomputing a team whose stored historical-match set is empty
leaves the existing analytics row unchanged, on both the management
command path and the model-method path. -/
theorem recompute_empty_noop (team : Team) (a : TeamAnalysis)
    (table : List HistoricalMatch) (hempty : team_matches team table = []) :
    update_team_analysis team (some a) table = a ∧
    update_from_history team a table = a := by
  have hsort : byDateDesc (team_matches team table) = [] := by
    rw [hempty]; rfl
  constructor
  · unfold update_team_analysis recent_window
    rw [hsort]
    rfl
  · unfold update_from_history
    rw [hsort]
    rfl

/-- Witness for C9: a table holding only another team's match leaves a
concrete analytics row untouched. -/
theorem recompute_empty_noop_witness :
    update_team_analysis ⟨1, 101⟩ (some ⟨some (3/4), [(2, 1/3)], some 50⟩)
        [⟨9, "mx", 5, "cup", 3, [3, 4]⟩] = ⟨some (3/4), [(2, 1/3)], some 50⟩ ∧
    update_from_history ⟨1, 101⟩ ⟨some (3/4), [(2, 1/3)], some 50⟩
        [⟨9, "mx", 5, "cup", 3, [3, 4]⟩] = ⟨some (3/4), [(2, 1/3)], some 50⟩ :=
  recompute_empty_noop ⟨1, 101⟩ ⟨some (3/4), [(2, 1/3)], some 50⟩
    [⟨9, "mx", 5, "cup", 3, [3, 4]⟩] rfl

/-- C8: for in-range factor values, the winner/confidence selection of
`predict` behaves as specified: a zero/zero score pair gives no winner
and confidence 0.5; otherwise the side with the strictly greater score
wins with confidence equal to its score over the score total, and an
exact nonzero tie resolves to the away side. -/
theorem predict_outcome_spec (wrH wrA h2h fH fA : ℚ)
    (hwrH : 0 ≤ wrH) (hwrA : 0 ≤ wrA) (hh0 : 0 ≤ h2h) (hh1 : h2h ≤ 1)
    (hfH : 0 ≤ fH) (hfA : 0 ≤ fA) :
    (home_score wrH h2h fH = 0 ∧ away_score wrA h2h fA = 0 →
      predict_outcome (home_score wrH h2h fH) (away_score wrA h2h fA) =
        { winner := none, confidence := 1/2 }) ∧
    (away_score wrA h2h fA < home_score wrH h2h fH →
      predict_outcome (home_score wrH h2h fH) (away_score wrA h2h fA) =
        { winner := some Side.home,
          confidence := home_score wrH h2h fH /
            (home_score wrH h2h fH + away_score wrA h2h fA) }) ∧
    (home_score wrH h2h fH < away_score wrA h2h fA →
      predict_outcome (home_score wrH h2h fH) (away_score wrA h2h fA) =
        { winner := some Side.away,
          confidence := away_score wrA h2h fA /
            (home_score wrH h2h fH + away_score wrA h2h fA) }) ∧
    (home_score wrH h2h fH = away_score wrA h2h fA →
      ¬(home_score wrH h2h fH = 0 ∧ away_score wrA h2h fA = 0) →
      predict_outcome (home_score wrH h2h fH) (away_score wrA h2h fA) =
        { winner := some Side.away,
          confidence := away_score wrA h2h fA /
            (home_score wrH h2h fH + away_score wrA h2h fA) }) := by
  have hhs : 0 ≤ home_score wrH h2h fH := by
    unfold home_score
    exact add_nonneg (add_nonneg (mul_nonneg hwrH (by norm_num))
      (mul_nonneg hh0 (by norm_num))) (mul_nonneg hfH (by norm_num))
  have hasc : 0 ≤ away_score wrA h2h fA := by
    unfold away_score
    exact add_nonneg (add_nonneg (mul_nonneg hwrA (by norm_num))
      (mul_nonneg (by linarith) (by norm_num))) (mul_nonneg hfA (by norm_num))
  refine ⟨?_, ?_, ?_, ?_⟩
  · rintro ⟨h1, h2⟩
    rw [h1, h2]
    norm_num [predict_outcome]
  · intro hlt
    have htot : 0 < home_score wrH h2h fH + away_score wrA h2h fA := by
      have : 0 < home_score wrH h2h fH := lt_of_le_of_lt hasc hlt
      linarith
    simp only [predict_outcome]
    rw [if_neg (ne_of_gt htot), if_pos ((div_lt_div_iff_of_pos_right htot).mpr hlt)]
  · intro hlt
    have htot : 0 < home_score wrH h2h fH + away_score wrA h2h fA := by
      have : 0 < away_score wrA h2h fA := lt_of_le_of_lt hhs hlt
      linarith
    simp only [predict_outcome]
    rw [if_neg (ne_of_gt htot),
      if_neg (not_lt.mpr ((div_le_div_iff_of_pos_right htot).mpr hlt.le))]
  · intro heq hne
    have hne0 : home_score wrH h2h fH ≠ 0 := fun h0 => hne ⟨h0, heq ▸ h0⟩
    have hpos : 0 < home_score wrH h2h fH := lt_of_le_of_ne hhs (Ne.symm hne0)
    have htot : 0 < home_score wrH h2h fH + away_score wrA h2h fA := by
      rw [← heq]; linarith
    simp only [predict_outcome]
    rw [if_neg (ne_of_gt htot), if_neg (not_lt.mpr (le_of_eq (by rw [heq])))]

/-- Witness for C8 at the spec's end-to-end scenario B factor values:
home win rate 0.7, away 0.5, h2h 0.6, home fatigue 1, away fatigue 0. -/
theorem predict_outcome_spec_witness :
    predict_outcome (home_score (7/10) (3/5) 1) (away_score (1/2) (3/5) 0) =
      { winner := some Side.home,
        confidence := home_score (7/10) (3/5) 1 /
          (home_score (7/10) (3/5) 1 + away_score (1/2) (3/5) 0) } :=
  (predict_outcome_spec (7/10) (1/2) (3/5) 1 0 (by norm_num) (by norm_num)
    (by norm_num) (by norm_num) (by norm_num) (by norm_num)).2.1
    (by norm_num [home_score, away_score])

/-- Processing one historical record never changes the `Team` table. -/
theorem store_one_teams (db : DB) (r : HistRecord) : (store_one db r).teams = db.teams := by
  unfold store_one
  repeat' split
  all_goals rfl

/-- Processing a batch of historical records never changes the `Team`
table. -/
theorem store_teams (db : DB) (batch : List HistRecord) :
    (store_historical_matches db batch).teams = db.teams := by
  induction batch generalizing db with
  | nil => rfl
  | cons r rest ih =>
    show (store_historical_matches (store_one db r) rest).teams = db.teams
    rw [ih, store_one_teams]

/-- Stored historical rows are never removed by processing a record. -/
theorem store_one_hist_mono (db : DB) (r : HistRecord) {m : HistoricalMatch}
    (hm : m ∈ db.historical) : m ∈ (store_one db r).historical := by
  unfold store_one
  repeat' split
  all_goals first
  | exact hm
  | exact List.mem_append_left _ hm

/-- Stored historical rows are never removed by processing a batch. -/
theorem store_hist_mono (db : DB) (batch : List HistRecord) {m : HistoricalMatch}
    (hm : m ∈ db.historical) : m ∈ (store_historical_matches db batch).historical := by
  induction batch generalizing db with
  | nil => exact hm
  | cons r rest ih => exact ih _ (store_one_hist_mono db r hm)

/-- A record whose winner id resolves to no team row is a pure skip. -/
theorem store_one_skip_no_winner (db : DB) (r : HistRecord)
    (h : resolve_winner db.teams r = none) : store_one db r = db := by
  unfold store_one
  repeat' split
  any_goals rfl
  next w hw =>
    rw [h] at hw
    exact Option.noConfusion hw

/-- Any row present after processing one record was either already stored
or carries a winner that resolves to an existing team row. -/
theorem store_one_hist_sources (db : DB) (r : HistRecord) (m : HistoricalMatch)
    (hm : m ∈ (store_one db r).historical) :
    m ∈ db.historical ∨ ∃ t ∈ db.teams, t.id = m.winner_id := by
  revert hm
  unfold store_one
  repeat' split
  any_goals exact Or.inl
  next w hw =>
    intro hm
    rcases List.mem_append.mp hm with h | h
    · exact Or.inl h
    · have hmeq : m = _ := List.mem_singleton.mp h
      subst hmeq
      right
      refine ⟨w, ?_, rfl⟩
      unfold resolve_winner at hw
      cases hr : r.winner_id with
      | none => rw [hr] at hw; exact Option.noConfusion hw
      | some wid =>
        rw [hr] at hw
        exact List.mem_of_find?_eq_some hw

/-- A fresh record with at least two resolved participants and a resolved
winner is persisted by `store_one`. -/
theorem store_one_persists (db : DB) (r : HistRecord)
    (hfresh : ∀ m ∈ db.historical, m.match_id ≠ r.match_id)
    (h2 : 2 ≤ (resolve_teams db.teams r).length)
    (w : Team) (hw : resolve_winner db.teams r = some w) :
    ∃ m ∈ (store_one db r).historical, m.match_id = r.match_id := by
  have hdup : (db.historical.any (fun m => m.match_id == r.match_id)) = false := by
    simp only [List.any_eq_false, beq_iff_eq]
    exact hfresh
  unfold store_one
  rw [if_neg (by simp [hdup]), if_neg (not_lt.mpr h2), hw]
  exact ⟨_, List.mem_append_right _ (List.mem_singleton_self _), rfl⟩

/-- C1 amended: a record is persisted only when its winner id resolves to
some existing `Team` row (not necessarily one of the participants): every
newly stored row's winner is an existing team; a record whose winner id
resolves to no team row is skipped without affecting the rest of the
batch; and a non-duplicate record with at least two resolved participants
and a resolved winner is persisted even when other records of the batch
are skipped. -/
theorem store_historical_matches_winner_resolution :
    (∀ (db : DB) (batch : List HistRecord) (m : HistoricalMatch),
      m ∈ (store_historical_matches db batch).historical →
      m ∈ db.historical ∨ ∃ t ∈ db.teams, t.id = m.winner_id) ∧
    (∀ (db : DB) (pre post : List HistRecord) (r : HistRecord),
      resolve_winner db.teams r = none →
      store_historical_matches db (pre ++ r :: post) =
        store_historical_matches db (pre ++ post)) ∧
    (∀ (db : DB) (pre post : List HistRecord) (r : HistRecord),
      (∀ m ∈ (store_historical_matches db pre).historical, m.match_id ≠ r.match_id) →
      2 ≤ (resolve_teams db.teams r).length →
      (∃ w, resolve_winner db.teams r = some w) →
      ∃ m ∈ (store_historical_matches db (pre ++ r :: post)).historical,
        m.match_id = r.match_id) := by
  refine ⟨?_, ?_, ?_⟩
  · intro db batch
    induction batch generalizing db with
    | nil => intro m hm; exact Or.inl hm
    | cons r rest ih =>
      intro m hm
      rcases ih (store_one db r) m hm with h | ⟨t, ht, hwid⟩
      · exact store_one_hist_sources db r m h
      · right
        rw [store_one_teams] at ht
        exact ⟨t, ht, hwid⟩
  · intro db pre post r
    induction pre generalizing db with
    | nil =>
      intro h
      show store_historical_matches (store_one db r) post = store_historical_matches db post
      rw [store_one_skip_no_winner db r h]
    | cons x xs ih =>
      intro h
      show store_historical_matches (store_one db x) (xs ++ r :: post) =
        store_historical_matches (store_one db x) (xs ++ post)
      exact ih (store_one db x) (by rwa [store_one_teams])
  · intro db pre post r
    induction pre generalizing db with
    | nil =>
      intro hfresh h2 hw
      obtain ⟨w, hw⟩ := hw
      obtain ⟨m, hm, hid⟩ := store_one_persists db r hfresh h2 w hw
      exact ⟨m, store_hist_mono _ post hm, hid⟩
    | cons x xs ih =>
      intro hfresh h2 hw
      refine ih (store_one db x) hfresh ?_ ?_
      · rwa [store_one_teams]
      · rwa [store_one_teams]

/-- Witness for the C1 amended theorem: in a concrete batch, a record
with an unresolved winner id is skipped without affecting the rest of the
batch, and the batch's valid record is persisted. -/
theorem store_historical_matches_winner_resolution_witness :
    store_historical_matches ⟨[⟨10, 1⟩, ⟨20, 2⟩], []⟩
        [⟨"bad", 7, "cup", [1, 2], some 99⟩, ⟨"good", 8, "cup", [1, 2], some 2⟩] =
      store_historical_matches ⟨[⟨10, 1⟩, ⟨20, 2⟩], []⟩
        [⟨"good", 8, "cup", [1, 2], some 2⟩] ∧
    ∃ m ∈ (store_historical_matches ⟨[⟨10, 1⟩, ⟨20, 2⟩], []⟩
        [⟨"bad", 7, "cup", [1, 2], some 99⟩, ⟨"good", 8, "cup", [1, 2], some 2⟩]).historical,
      m.match_id = "good" := by
  constructor
  · exact store_historical_matches_winner_resolution.2.1 ⟨[⟨10, 1⟩, ⟨20, 2⟩], []⟩ []
      [⟨"good", 8, "cup", [1, 2], some 2⟩] ⟨"bad", 7, "cup", [1, 2], some 99⟩ rfl
  · exact store_historical_matches_winner_resolution.2.2 ⟨[⟨10, 1⟩, ⟨20, 2⟩], []⟩
      [⟨"bad", 7, "cup", [1, 2], some 99⟩] [] ⟨"good", 8, "cup", [1, 2], some 2⟩
      (by decide) (by decide) ⟨⟨20, 2⟩, rfl⟩

/-- Sorting by date descending permutes the list. -/
theorem byDateDesc_perm (l : List HistoricalMatch) : List.Perm (byDateDesc l) l :=
  List.perm_insertionSort dateDesc l

/-- Sorting by date descending sorts by date descending. -/
theorem byDateDesc_sorted (l : List HistoricalMatch) :
    List.Sorted dateDesc (byDateDesc l) :=
  List.sorted_insertionSort dateDesc l

/-- The first element of the date-descending ordering carries the maximal
date of the list. -/
theorem byDateDesc_head_max (l : List HistoricalMatch) (x : HistoricalMatch)
    (xs : List HistoricalMatch) (hx : byDateDesc l = x :: xs) :
    ∀ m ∈ l, m.date ≤ x.date := by
  intro m hm
  have hm2 : m ∈ x :: xs := by
    rw [← hx]
    exact ((byDateDesc_perm l).mem_iff).mpr hm
  rcases List.mem_cons.mp hm2 with h | h
  · subst h
    exact le_rfl
  · have hs := byDateDesc_sorted l
    rw [hx] at hs
    exact (List.sorted_cons.mp hs).1 m h

/-- C7: for a team with at least one stored match, recompute writes the
win rate (matches of the at-most-10 most-recent window won by the team,
over the window size), the result lies in [0,1], and the written
last-match timestamp is the date of the most recent of the team's stored
matches. -/
theorem update_team_analysis_window_spec (team : Team) (existing : Option TeamAnalysis)
    (table : List HistoricalMatch) (hne : team_matches team table ≠ []) :
    (update_team_analysis team existing table).last_ten_winrate =
      some (((recent_window team table).countP (fun m => m.winner_id == team.id) : ℚ) /
        ((recent_window team table).length : ℚ)) ∧
    (0 : ℚ) ≤ ((recent_window team table).countP (fun m => m.winner_id == team.id) : ℚ) /
        ((recent_window team table).length : ℚ) ∧
    ((recent_window team table).countP (fun m => m.winner_id == team.id) : ℚ) /
        ((recent_window team table).length : ℚ) ≤ 1 ∧
    ∃ m0 ∈ team_matches team table,
      (update_team_analysis team existing table).last_match_data = some m0.date ∧
      ∀ m ∈ team_matches team table, m.date ≤ m0.date := by
  have hlen : (team_matches team table).length ≠ 0 := fun h =>
    hne (List.eq_nil_of_length_eq_zero h)
  have hpos : 0 < (team_matches team table).length := Nat.pos_of_ne_zero hlen
  have hsortlen : (byDateDesc (team_matches team table)).length =
      (team_matches team table).length := (byDateDesc_perm _).length_eq
  have hwpos : 0 < (recent_window team table).length := by
    unfold recent_window
    rw [List.length_take, hsortlen]
    exact lt_min (by norm_num) hpos
  have hwne : (recent_window team table).length ≠ 0 := Nat.pos_iff_ne_zero.mp hwpos
  have hupd : update_team_analysis team existing table =
      { existing.getD defaultTeamAnalysis with
          last_ten_winrate :=
            some (((recent_window team table).countP (fun m => m.winner_id == team.id) : ℚ) /
              ((recent_window team table).length : ℚ))
          last_match_data := (recent_window team table).head?.map (fun m => m.date) } := by
    unfold update_team_analysis
    rw [if_neg hwne]
  refine ⟨by rw [hupd], div_nonneg (Nat.cast_nonneg _) (Nat.cast_nonneg _), ?_, ?_⟩
  · rw [div_le_one (by exact_mod_cast hwpos)]
    exact_mod_cast List.countP_le_length (fun m : HistoricalMatch => m.winner_id == team.id)
  · cases hwq : recent_window team table with
    | nil =>
      rw [hwq] at hwpos
      exact absurd hwpos (by simp)
    | cons m0 rest =>
      refine ⟨m0, ?_, ?_, ?_⟩
      · have hmem : m0 ∈ byDateDesc (team_matches team table) := by
          have hm : m0 ∈ recent_window team table := by
            rw [hwq]
            exact List.mem_cons_self _ _
          unfold recent_window at hm
          exact List.Sublist.subset (List.take_sublist _ _) hm
        exact ((byDateDesc_perm _).mem_iff).mp hmem
      · rw [hupd, hwq]
        rfl
      · cases hsq : byDateDesc (team_matches team table) with
        | nil =>
          rw [hsq] at hsortlen
          exact absurd hsortlen.symm hlen
        | cons y ys =>
          have htake : recent_window team table = y :: ys.take 9 := by
            unfold recent_window
            rw [hsq]
            rfl
          have hy : m0 = y := by
            rw [hwq] at htake
            injection htake with h1 h2
          subst hy
          exact byDateDesc_head_max _ _ _ hsq

/-- Witness for C7 at a concrete two-match history: one win out of two
recorded matches for the team, most recent match at date 200. -/
theorem update_team_analysis_window_spec_witness :
    (update_team_analysis ⟨1, 101⟩ none
        [⟨1, "m1", 100, "cup", 1, [1, 2]⟩, ⟨2, "m2", 200, "cup", 2, [1, 2]⟩]).last_ten_winrate =
      some (((recent_window ⟨1, 101⟩
          [⟨1, "m1", 100, "cup", 1, [1, 2]⟩, ⟨2, "m2", 200, "cup", 2, [1, 2]⟩]).countP
            (fun m => m.winner_id == (⟨1, 101⟩ : Team).id) : ℚ) /
        ((recent_window ⟨1, 101⟩
          [⟨1, "m1", 100, "cup", 1, [1, 2]⟩, ⟨2, "m2", 200, "cup", 2, [1, 2]⟩]).length : ℚ)) ∧
    (0 : ℚ) ≤ ((recent_window ⟨1, 101⟩
          [⟨1, "m1", 100, "cup", 1, [1, 2]⟩, ⟨2, "m2", 200, "cup", 2, [1, 2]⟩]).countP
            (fun m => m.winner_id == (⟨1, 101⟩ : Team).id) : ℚ) /
        ((recent_window ⟨1, 101⟩
          [⟨1, "m1", 100, "cup", 1, [1, 2]⟩, ⟨2, "m2", 200, "cup", 2, [1, 2]⟩]).length : ℚ) ∧
    ((recent_window ⟨1, 101⟩
          [⟨1, "m1", 100, "cup", 1, [1, 2]⟩, ⟨2, "m2", 200, "cup", 2, [1, 2]⟩]).countP
            (fun m => m.winner_id == (⟨1, 101⟩ : Team).id) : ℚ) /
        ((recent_window ⟨1, 101⟩
          [⟨1, "m1", 100, "cup", 1, [1, 2]⟩, ⟨2, "m2", 200, "cup", 2, [1, 2]⟩]).length : ℚ) ≤ 1 ∧
    ∃ m0 ∈ team_matches ⟨1, 101⟩
        [⟨1, "m1", 100, "cup", 1, [1, 2]⟩, ⟨2, "m2", 200, "cup", 2, [1, 2]⟩],
      (update_team_analysis ⟨1, 101⟩ none
        [⟨1, "m1", 100, "cup", 1, [1, 2]⟩, ⟨2, "m2", 200, "cup", 2, [1, 2]⟩]).last_match_data =
          some m0.date ∧
      ∀ m ∈ team_matches ⟨1, 101⟩
          [⟨1, "m1", 100, "cup", 1, [1, 2]⟩, ⟨2, "m2", 200, "cup", 2, [1, 2]⟩],
        m.date ≤ m0.date :=
  update_team_analysis_window_spec ⟨1, 101⟩ none
    [⟨1, "m1", 100, "cup", 1, [1, 2]⟩, ⟨2, "m2", 200, "cup", 2, [1, 2]⟩] (by decide)

/-- Two permuted key lists agree on every `contains` query. -/
theorem contains_perm_eq {l1 l2 : List Nat} (h : List.Perm l1 l2) (a : Nat) :
    l1.contains a = l2.contains a := by
  by_cases hm : a ∈ l2
  · have hm1 : a ∈ l1 := h.mem_iff.mpr hm
    simp [hm, hm1]
  · have hm1 : a ∉ l1 := fun hh => hm (h.mem_iff.mp hh)
    simp [hm, hm1]

/-- Counting, over a full table with pairwise distinct primary keys, the
rows whose key lies in a sublist's key set and that satisfy a predicate
is the same as counting the predicate over the sublist. -/
theorem countP_sublist_ids (p : HistoricalMatch → Bool) :
    ∀ {w tbl : List HistoricalMatch}, List.Sublist w tbl →
      (tbl.map (fun m => m.id)).Nodup →
      tbl.countP (fun m => (w.map (fun m2 => m2.id)).contains m.id && p m) =
        w.countP p := by
  intro w tbl hsub
  induction hsub with
  | slnil =>
    intro _
    rfl
  | @cons l1 l2 x hsub ih =>
    intro hnd
    rw [List.map_cons, List.nodup_cons] at hnd
    obtain ⟨hx, hnd⟩ := hnd
    rw [List.countP_cons]
    have hxid : x.id ∉ l1.map (fun m2 => m2.id) := fun hmem =>
      hx (List.Sublist.subset (List.Sublist.map (fun m2 => m2.id) hsub) hmem)
    have hfx : ((l1.map (fun m2 => m2.id)).contains x.id && p x) = false := by
      simp [hxid]
    rw [hfx, if_neg Bool.false_ne_true, Nat.add_zero]
    exact ih hnd
  | @cons₂ l1 l2 x hsub ih =>
    intro hnd
    rw [List.map_cons, List.nodup_cons] at hnd
    obtain ⟨hx, hnd⟩ := hnd
    rw [List.countP_cons, List.countP_cons]
    have hfx : (((x :: l1).map (fun m2 => m2.id)).contains x.id && p x) = p x := by
      simp
    have hcong : List.countP
        (fun m => (((x :: l1).map (fun m2 => m2.id)).contains m.id && p m)) l2 =
        List.countP (fun m => ((l1.map (fun m2 => m2.id)).contains m.id && p m)) l2 := by
      apply List.countP_congr
      intro m hm
      have hne : m.id ≠ x.id := fun he =>
        hx (he ▸ List.mem_map_of_mem (fun m2 => m2.id) hm)
      simp [hne]
    rw [hfx, hcong, ih hnd]

/-- C10: the management command's recompute (`update_team_analysis`) and
the model method (`TeamAnalysis.update_from_history`) produce the same
resulting analytics row on every table whose rows carry pairwise distinct
primary keys, for any starting analysis state (including the
`get_or_create` default when none exists). -/
theorem recompute_implementations_agree (team : Team) (existing : Option TeamAnalysis)
    (table : List HistoricalMatch) (hnd : (table.map (fun m => m.id)).Nodup) :
    update_team_analysis team existing table =
      update_from_history team (existing.getD defaultTeamAnalysis) table := by
  unfold update_team_analysis update_from_history recent_window
  cases hsq : byDateDesc (team_matches team table) with
  | nil => rfl
  | cons y ys =>
    dsimp only
    have htake : List.take 10 (y :: ys) = y :: List.take 9 ys := rfl
    rw [htake]
    rw [if_neg (by simp), if_neg (by simp)]
    have hsubperm : List.Subperm (y :: List.take 9 ys) table := by
      have h1 : List.Sublist (y :: List.take 9 ys) (byDateDesc (team_matches team table)) := by
        rw [hsq, ← htake]
        exact List.take_sublist 10 (y :: ys)
      exact ((h1.subperm).trans (byDateDesc_perm (team_matches team table)).subperm).trans
        (List.filter_sublist table).subperm
    obtain ⟨w2, hw2perm, hw2sub⟩ := hsubperm
    have hstep1 : List.countP (fun m =>
        ((y :: List.take 9 ys).map (fun m2 => m2.id)).contains m.id &&
          (m.winner_id == team.id)) table =
        List.countP (fun m =>
        (w2.map (fun m2 => m2.id)).contains m.id && (m.winner_id == team.id)) table := by
      apply List.countP_congr
      intro m hm
      rw [contains_perm_eq (hw2perm.map (fun m2 => m2.id)) m.id]
    have hwins : (table.filter (fun m =>
        ((y :: List.take 9 ys).map (fun m2 => m2.id)).contains m.id &&
          (m.winner_id == team.id))).length =
        List.countP (fun m => m.winner_id == team.id) (y :: List.take 9 ys) := by
      rw [← List.countP_eq_length_filter, hstep1,
        countP_sublist_ids _ hw2sub hnd, hw2perm.countP_eq]
    have hlen2 : ((y :: List.take 9 ys).map (fun m => m.id)).length =
        (y :: List.take 9 ys).length := List.length_map _ _
    rw [hwins, hlen2]
    rfl

/-- Witness for C10 at a concrete three-match table with distinct primary
keys and an existing analysis row. -/
theorem recompute_implementations_agree_witness :
    update_team_analysis ⟨1, 101⟩ (some ⟨some (1/4), [], some 7⟩)
        [⟨1, "m1", 100, "cup", 1, [1, 2]⟩, ⟨2, "m2", 200, "cup", 2, [1, 2]⟩,
         ⟨3, "m3", 150, "cup", 1, [1, 3]⟩] =
      update_from_history ⟨1, 101⟩
        ((some (⟨some (1/4), [], some 7⟩ : TeamAnalysis)).getD defaultTeamAnalysis)
        [⟨1, "m1", 100, "cup", 1, [1, 2]⟩, ⟨2, "m2", 200, "cup", 2, [1, 2]⟩,
         ⟨3, "m3", 150, "cup", 1, [1, 3]⟩] :=
  recompute_implementations_agree ⟨1, 101⟩ (some ⟨some (1/4), [], some 7⟩)
    [⟨1, "m1", 100, "cup", 1, [1, 2]⟩, ⟨2, "m2", 200, "cup", 2, [1, 2]⟩,
     ⟨3, "m3", 150, "cup", 1, [1, 3]⟩] (by decide)

end Esports
